import Mathlib

/-!
Shallow embedding of the manticore configuration system
(src/manticore/utils/config.py) and proofs about its spec claims.

Python object identity is modelled explicitly: every runtime value is a
`PyObj`, a payload (`Yaml`) tagged with a numeric identity.  The Python
test `a is b` becomes comparison of the `id` fields.  The module-level
`_groups` dict together with the identity supply for freshly constructed
objects forms the `Registry` state, which is threaded functionally.
-/

namespace Manticore

/-- Payloads of Python values as they occur in this module: scalars from
YAML documents and nested mappings.  A YAML document is the same type. -/
inductive Yaml where
  | null : Yaml
  | int : Int → Yaml
  | bool : Bool → Yaml
  | str : String → Yaml
  | ymap : List (String × Yaml) → Yaml

/-- Python truthiness of a payload, used by the `or` idiom in `update`. -/
def Yaml.truthy : Yaml → Bool
  | .null => false
  | .int n => n != 0
  | .bool b => b
  | .str s => s != ""
  | .ymap l => !l.isEmpty

/-- A Python value: a payload together with its object identity. -/
structure PyObj where
  id : Nat
  val : Yaml

/-- The `None` singleton: identity 0 is reserved for it. -/
def pyNone : PyObj := ⟨0, Yaml.null⟩

/-- Python `a is b`: object identity comparison. -/
def pyIs (a b : PyObj) : Bool := a.id == b.id

/-- Python `a or b`: `a` when truthy, otherwise `b`. -/
def pyOr (a b : PyObj) : PyObj := if a.val.truthy then a else b

/-- Exception kinds raised by the module, kept distinguishable exactly as
the Python exception classes are. -/
inductive PyError where
  | configError : String → PyError
  | attributeError : String → PyError
  | keyError : String → PyError
  | fileNotFoundError : String → PyError
deriving DecidableEq

/-- The `_var` record of config.py: name, description, current value,
default, and the `defined` provenance flag. -/
structure Var where
  name : String
  description : PyObj
  value : PyObj
  default : PyObj
  defined : Bool

/-- `_var.was_set`: `self.value is not self.default` — an identity test. -/
def Var.was_set (v : Var) : Bool := !(pyIs v.value v.default)

/-- Lookup in an insertion-ordered association list (Python dict read). -/
def alistFind {α : Type} (l : List (String × α)) (k : String) : Option α :=
  match l.find? (fun p => p.1 == k) with
  | some p => some p.2
  | none => none

/-- Python dict assignment `d[k] = v`: replaces in place when the key is
present (keeping its position), appends otherwise. -/
def alistInsert {α : Type} (l : List (String × α)) (k : String) (v : α) :
    List (String × α) :=
  if l.any (fun p => p.1 == k) then
    l.map (fun p => if p.1 == k then (k, v) else p)
  else l ++ [(k, v)]

/-- The `_group` record: a name and the insertion-ordered `_vars` dict. -/
structure Group where
  name : String
  vars : List (String × Var)

/-- `_group.add`: raises `ConfigError` when the name is already present,
otherwise stores a fresh defined variable whose value is its default
(the same object, so `was_set` starts false). -/
def Group.add (g : Group) (nm : String) (dflt descr : PyObj) :
    Except PyError Group :=
  if (alistFind g.vars nm).isSome then
    .error (.configError (g.name ++ "." ++ nm ++ " already defined."))
  else
    let v : Var :=
      { name := nm, description := descr, value := dflt, default := dflt,
        defined := true }
    .ok { g with vars := alistInsert g.vars nm v }

/-- `_group.update`: tolerates existing names, inheriting the previous
description and default through Python `or` (so falsy new ones are
ignored), and always stores a replacement record with `defined = false`
whose value is the given value. -/
def Group.update (g : Group) (nm : String) (value dflt descr : PyObj) :
    Group :=
  let descr2 := match alistFind g.vars nm with
    | some prev => pyOr descr prev.description
    | none => descr
  let dflt2 := match alistFind g.vars nm with
    | some prev => pyOr dflt prev.default
    | none => dflt
  let v : Var :=
    { name := nm, description := descr2, value := value, default := dflt2,
      defined := false }
  { g with vars := alistInsert g.vars nm v }

/-- `_group.get_description`: `ConfigError` when the name is unknown. -/
def Group.get_description (g : Group) (nm : String) : Except PyError PyObj :=
  match alistFind g.vars nm with
  | none => .error (.configError (g.name ++ "." ++ nm ++ " not defined."))
  | some v => .ok v.description

/-- `_group.updated_vars`: the variables whose `was_set` holds, in
insertion order. -/
def Group.updated_vars (g : Group) : List Var :=
  (g.vars.map (fun p => p.2)).filter (fun v => v.was_set)

/-- `_group.__getattr__`: `AttributeError` when the name is unknown,
otherwise the current value. -/
def Group.getattr (g : Group) (nm : String) : Except PyError PyObj :=
  match alistFind g.vars nm with
  | none => .error (.attributeError
      ("Group " ++ g.name ++ " has no variable " ++ nm))
  | some v => .ok v.value

/-- `_group.__setattr__`: `self._vars[name].value = new_value`, which
raises `KeyError` when the name is absent from the dict. -/
def Group.setattr (g : Group) (nm : String) (v : PyObj) :
    Except PyError Group :=
  match alistFind g.vars nm with
  | none => .error (.keyError nm)
  | some old =>
      .ok { g with vars := alistInsert g.vars nm ({ old with value := v }) }

/-- The module state: the `_groups` dict plus the identity supply for
objects freshly constructed while loading. -/
structure Registry where
  groups : List (String × Group)
  nextId : Nat

/-- `get_group`: get-or-create; a created group is stored and returned. -/
def get_group (st : Registry) (nm : String) : Registry × Group :=
  match alistFind st.groups nm with
  | some g => (st, g)
  | none =>
      let g : Group := ⟨nm, []⟩
      ({ st with groups := st.groups ++ [(nm, g)] }, g)

/-- `save`: one section per group, holding the values of its
`updated_vars` keyed by variable name; empty sections are skipped. -/
def save (st : Registry) : List (String × List (String × Yaml)) :=
  st.groups.filterMap (fun p =>
    let sect := p.2.updated_vars.map (fun v => (v.name, v.value.val))
    if sect.isEmpty then none else some (p.1, sect))

/-- The YAML document `save` serializes: a mapping of mappings.  The
round trip through yaml.safe_dump and yaml.safe_load is the identity on
this shape, so the document itself stands for the file content. -/
def docOfSave (c : List (String × List (String × Yaml))) : Yaml :=
  .ymap (c.map (fun p => (p.1, Yaml.ymap p.2)))

/-- Loading constructs a fresh object per scalar read from the file; the
YAML null maps back to the `None` singleton. -/
def freshObj (nid : Nat) (v : Yaml) : PyObj × Nat :=
  match v with
  | .null => (pyNone, nid)
  | w => (⟨nid, w⟩, nid + 1)

/-- The inner loop of `parse_config`: for every key of a section,
`group.update(key)` then `setattr(group, key, val)`.  The Boolean
reports whether the loop ran to completion (an exception inside it would
be swallowed upstream with the group partially modified). -/
def apply_keys (g : Group) (nid : Nat) :
    List (String × Yaml) → Group × Nat × Bool
  | [] => (g, nid, true)
  | (k, node) :: rest =>
      let g1 := g.update k pyNone pyNone pyNone
      let fr := freshObj nid node
      match g1.setattr k fr.1 with
      | .ok g2 => apply_keys g2 fr.2 rest
      | .error _ => (g1, fr.2, false)

/-- The outer loop of `parse_config`: each section first materializes
its group via `get_group` (a registry mutation even when the section
then turns out malformed); a section that is not a mapping raises inside
the loop, which the surrounding handler swallows, keeping every change
already applied. -/
def parse_sections (st : Registry) : List (String × Yaml) → Registry
  | [] => st
  | (sname, sect) :: rest =>
      let stg := get_group st sname
      match sect with
      | .ymap kvs =>
          let r := apply_keys stg.2 stg.1.nextId kvs
          let st2 : Registry :=
            { groups := alistInsert stg.1.groups sname r.1,
              nextId := r.2.1 }
          if r.2.2 then parse_sections st2 rest else st2
      | _ => stg.1

/-- `parse_config`: parse the stream (an `Except` models a parser
failure), then traverse the document; every exception is caught and
logged, never propagated, leaving whatever state was reached. -/
def parse_config (st : Registry) (f : Except Unit Yaml) : Registry :=
  match f with
  | .error _ => st
  | .ok (.ymap sections) => parse_sections st sections
  | .ok _ => st

/-- The default candidate paths of `load_overrides`, exactly as built by
`os.path.join` over `itertools.product` with the left factor varying
slowest. -/
def default_names : List String :=
  (["", "."].flatMap (fun pre =>
    (["mcore.yml", "manticore.yml"]).map (fun n => "./" ++ (pre ++ n))))

/-- A file system for the loader: the present paths with their parse
outcome as content. -/
def Fs : Type := List (String × Except Unit Yaml)

/-- The candidate loop of `load_overrides`: first existing file wins and
is parsed; the flag records whether any was found. -/
def try_names (st : Registry) (fs : Fs) : List String → Registry × Bool
  | [] => (st, false)
  | n :: rest =>
      match alistFind fs n with
      | some content => (parse_config st content, true)
      | none => try_names st fs rest

/-- `load_overrides`: with an explicit path, only that path is tried and
a miss raises `FileNotFoundError`; with none, the default candidates are
tried in order and a total miss is a silent no-op. -/
def load_overrides (st : Registry) (fs : Fs) (path : Option String) :
    Except PyError Registry :=
  match path with
  | some p =>
      match alistFind fs p with
      | some content => .ok (parse_config st content)
      | none => .error (.fileNotFoundError
          (p ++ " not found for config overrides"))
  | none => .ok (try_names st fs default_names).1

/-- Python `str()` of the payloads, as interpolated by f-strings in
`describe_options`. -/
def Yaml.pystr : Yaml → String
  | .null => "None"
  | .int n => toString n
  | .bool b => if b then "True" else "False"
  | .str s => s
  | .ymap _ => "\x7b...\x7d"

/-- The body of the inner loop of `describe_options`: skip the variable
when its `defined` flag is false, else emit its block. -/
def describeVarStep (gname : String) (s2 : String) (q : String × Var) :
    String :=
  if !q.2.defined then s2
  else s2 ++ gname ++ "." ++ q.1 ++ "\n  default: "
    ++ q.2.default.val.pystr ++ "\n  "
    ++ q.2.description.val.pystr ++ "\n"

/-- `describe_options`: for every group and every variable whose
`defined` flag holds, emit its qualified name, default and description;
variables with `defined = false` are skipped. -/
def describe_options (st : Registry) : String :=
  st.groups.foldl (fun s p => p.2.vars.foldl (describeVarStep p.1) s) ""

/-- The registry restricted to its declared variables; used to state
that `describe_options` reads nothing else. -/
def filterDefinedReg (st : Registry) : Registry :=
  { groups := st.groups.map (fun p =>
      (p.1, Group.mk p.2.name (p.2.vars.filter (fun q => q.2.defined)))),
    nextId := st.nextId }

/-- Reading `group.name` from a registry and projecting the payload:
this is what a value-equality assertion such as `g.x == 42` observes. -/
def regGet (st : Registry) (gname nm : String) : Option Yaml :=
  match alistFind st.groups gname with
  | none => none
  | some g =>
      match g.getattr nm with
      | .ok o => some o.val
      | .error _ => none

/-! ## Concrete scenarios from the spec's testable properties -/

/-- Round-trip scenario: group `g` declares `x` with default `1` (object
identity 1), then `x` is set to `42` (a distinct object, identity 2). -/
def roundtripReg : Registry :=
  let p := get_group (Registry.mk [] 3) "g"
  match p.2.add "x" (PyObj.mk 1 (Yaml.int 1)) pyNone with
  | .ok g1 =>
      match g1.setattr "x" (PyObj.mk 2 (Yaml.int 42)) with
      | .ok g2 =>
          { groups := alistInsert p.1.groups "g" g2, nextId := p.1.nextId }
      | .error _ => p.1
  | .error _ => p.1

/-- A working directory holding a hidden short-name override and a plain
full-name override that disagree on the value of `g.x`. -/
def bothNamesFs : Fs :=
  [("./.mcore.yml",
     Except.ok (Yaml.ymap [("g", Yaml.ymap [("x", Yaml.int 1)])])),
   ("./manticore.yml",
     Except.ok (Yaml.ymap [("g", Yaml.ymap [("x", Yaml.int 2)])]))]

/-- A document whose first section is well formed and whose second
section is a scalar, so traversal fails after the first was applied. -/
def halfBadDoc : Yaml :=
  Yaml.ymap [("a", Yaml.ymap [("x", Yaml.int 1)]), ("b", Yaml.int 5)]

/-- A group holding one variable introduced purely via `update`. -/
def updatedOnlyG : Group :=
  Group.update (Group.mk "g" []) "x" (PyObj.mk 7 (Yaml.int 3)) pyNone pyNone

/-- A group with a declared variable whose default is the object
`(id 1, 5)`. -/
def declaredG : Group :=
  Group.mk "g" [("x", Var.mk "x" pyNone (PyObj.mk 1 (Yaml.int 5))
    (PyObj.mk 1 (Yaml.int 5)) true)]

/-- The result of updating `declaredG.x` to `7` while supplying the
falsy default object `(id 2, 0)`. -/
def falsyDefaultG : Group :=
  declaredG.update "x" (PyObj.mk 3 (Yaml.int 7)) (PyObj.mk 2 (Yaml.int 0))
    pyNone

/-- A group whose variable `x` was set: value `(id 2, 42)` differs in
identity from the default `(id 1, 1)`. -/
def setVarG : Group :=
  Group.mk "g" [("x", Var.mk "x" pyNone (PyObj.mk 2 (Yaml.int 42))
    (PyObj.mk 1 (Yaml.int 1)) true)]

/-- `setVarG` after assigning back the exact default object stored in
the record of `x`. -/
def restoredG : Group :=
  Group.mk "g" [("x", Var.mk "x" pyNone (PyObj.mk 1 (Yaml.int 1))
    (PyObj.mk 1 (Yaml.int 1)) true)]

/-! ## Helper lemmas about the embedded operations -/

theorem find_map_replace {α : Type} (l : List (String × α)) (k : String)
    (v : α) :
    (l.map (fun p => if p.1 == k then (k, v) else p)).find?
        (fun p => p.1 == k)
      = if l.any (fun p => p.1 == k) then some (k, v) else none := by
  induction l with
  | nil => simp
  | cons p rest ih =>
      by_cases hp : (p.1 == k) = true
      · rw [List.map_cons, if_pos hp, List.find?_cons_of_pos _ (by simp)]
        simp [List.any_cons, hp]
      · rw [List.map_cons, if_neg hp,
          List.find?_cons_of_neg _ (by simpa using hp), ih]
        have hf : (p.1 == k) = false := by
          revert hp; cases p.1 == k <;> simp
        rw [List.any_cons, hf, Bool.false_or]

theorem find_append_single {α : Type} (l : List (String × α)) (k : String)
    (v : α) (h : l.any (fun p => p.1 == k) = false) :
    (l ++ [(k, v)]).find? (fun p => p.1 == k) = some (k, v) := by
  induction l with
  | nil => simp
  | cons p rest ih =>
      simp only [List.any_cons, Bool.or_eq_false_iff] at h
      rw [List.cons_append, List.find?_cons_of_neg _ (by simp [h.1])]
      exact ih h.2

theorem alistFind_insert_self {α : Type} (l : List (String × α))
    (k : String) (v : α) :
    alistFind (alistInsert l k v) k = some v := by
  unfold alistFind alistInsert
  by_cases h : (l.any fun p => p.1 == k) = true
  · rw [if_pos h, find_map_replace, if_pos h]
  · rw [if_neg h, find_append_single l k v (by
      revert h
      cases l.any fun p => p.1 == k <;> simp)]

theorem mem_updated_vars (g : Group) (v : Var) :
    v ∈ g.updated_vars ↔ v ∈ g.vars.map (fun p => p.2) ∧ v.was_set = true := by
  simp [Group.updated_vars, List.mem_filter]

theorem mem_save_iff (st : Registry) (gname : String)
    (sec : List (String × Yaml)) :
    (gname, sec) ∈ save st ↔
      ∃ g, (gname, g) ∈ st.groups ∧
        sec = g.updated_vars.map (fun v => (v.name, v.value.val)) ∧
        sec ≠ [] := by
  unfold save
  rw [List.mem_filterMap]
  constructor
  · rintro ⟨⟨gn, g⟩, hmem, hf⟩
    by_cases he :
        (g.updated_vars.map (fun v => (v.name, v.value.val))).isEmpty = true
    · simp [he] at hf
    · simp only [he, Bool.false_eq_true, if_false] at hf
      injection hf with hf2
      have h1 : gn = gname := congrArg Prod.fst hf2
      have h2 : g.updated_vars.map (fun v => (v.name, v.value.val)) = sec :=
        congrArg Prod.snd hf2
      exact ⟨g, by rw [h1] at hmem; exact hmem, h2.symm, by
        rw [← h2]; simpa [List.isEmpty_iff] using he⟩
  · rintro ⟨g, hmem, hsec, hne⟩
    refine ⟨(gname, g), hmem, ?_⟩
    have he : (g.updated_vars.map
        (fun v => (v.name, v.value.val))).isEmpty = false := by
      rw [← hsec]; simpa [List.isEmpty_iff] using hne
    simp [he, hsec]

theorem setattr_after_update_ok (g : Group) (k : String) (o : PyObj) :
    (g.update k pyNone pyNone pyNone).setattr k o =
      .ok { g.update k pyNone pyNone pyNone with
            vars := alistInsert (g.update k pyNone pyNone pyNone).vars k
              ({ name := k,
                 description := match alistFind g.vars k with
                   | some prev => pyOr pyNone prev.description
                   | none => pyNone,
                 value := o,
                 default := match alistFind g.vars k with
                   | some prev => pyOr pyNone prev.default
                   | none => pyNone,
                 defined := false }) } := by
  unfold Group.setattr
  rw [show alistFind (g.update k pyNone pyNone pyNone).vars k = some
      ({ name := k,
         description := match alistFind g.vars k with
           | some prev => pyOr pyNone prev.description
           | none => pyNone,
         value := pyNone,
         default := match alistFind g.vars k with
           | some prev => pyOr pyNone prev.default
           | none => pyNone,
         defined := false }) from by
    unfold Group.update
    exact alistFind_insert_self ..]

theorem apply_keys_flag (g : Group) (nid : Nat)
    (kvs : List (String × Yaml)) :
    (apply_keys g nid kvs).2.2 = true := by
  induction kvs generalizing g nid with
  | nil => rfl
  | cons p rest ih =>
      obtain ⟨k, node⟩ := p
      rw [apply_keys, setattr_after_update_ok]
      exact ih _ _

theorem try_names_all_missing (st : Registry) (fs : Fs) (ns : List String)
    (h : ∀ n ∈ ns, alistFind fs n = none) :
    try_names st fs ns = (st, false) := by
  induction ns with
  | nil => rfl
  | cons n rest ih =>
      rw [try_names, h n (by simp)]
      exact ih fun m hm => h m (by simp [hm])

theorem describe_vars_filter (l : List (String × Var)) (gn s : String) :
    (l.filter (fun q => q.2.defined)).foldl (describeVarStep gn) s
      = l.foldl (describeVarStep gn) s := by
  induction l generalizing s with
  | nil => rfl
  | cons q rest ih =>
      by_cases hq : q.2.defined = true
      · rw [List.filter_cons, if_pos hq, List.foldl_cons, List.foldl_cons]
        exact ih _
      · rw [List.filter_cons, if_neg hq, List.foldl_cons]
        have hstep : describeVarStep gn s q = s := by
          unfold describeVarStep
          rw [if_pos (by revert hq; cases q.2.defined <;> simp)]
        rw [hstep]
        exact ih _

theorem describe_groups_filter (gl : List (String × Group)) (s : String) :
    (gl.map (fun p => (p.1, Group.mk p.2.name
        (p.2.vars.filter (fun q => q.2.defined))))).foldl
      (fun s p => p.2.vars.foldl (describeVarStep p.1) s) s
    = gl.foldl (fun s p => p.2.vars.foldl (describeVarStep p.1) s) s := by
  induction gl generalizing s with
  | nil => rfl
  | cons p rest ih =>
      rw [List.map_cons, List.foldl_cons, List.foldl_cons]
      show (List.map _ rest).foldl _
        ((p.2.vars.filter (fun q => q.2.defined)).foldl
          (describeVarStep p.1) s) = _
      rw [describe_vars_filter]
      exact ih _

theorem parse_sections_append (st : Registry)
    (pre tail : List (String × Yaml))
    (h : ∀ s ∈ pre, ∃ l, s.2 = Yaml.ymap l) :
    parse_sections st (pre ++ tail)
      = parse_sections (parse_sections st pre) tail := by
  induction pre generalizing st with
  | nil => rfl
  | cons p rest ih =>
      obtain ⟨k, sct⟩ := p
      obtain ⟨l, hl⟩ := h (k, sct) (by simp)
      simp only at hl
      subst hl
      simp only [List.cons_append, parse_sections, apply_keys_flag,
        if_true]
      exact ih _ fun s hs => h s (by simp [hs])

theorem parse_sections_stop (st : Registry) (sname : String) (bad : Yaml)
    (rest : List (String × Yaml)) (hbad : ∀ l, bad ≠ Yaml.ymap l) :
    parse_sections st ((sname, bad) :: rest) = (get_group st sname).1 := by
  cases bad <;> first | rfl | exact absurd rfl (hbad _)

theorem parse_config_not_map (st : Registry) (d : Yaml)
    (hd : ∀ l, d ≠ Yaml.ymap l) :
    parse_config st (.ok d) = st := by
  cases d <;> first | rfl | exact absurd rfl (hd _)

/-! ## Claim theorems -/

/-- C1: `was_set` is identity-based.  Immediately after
`add(name, default, ...)` the value slot holds the default object
itself, so `was_set` is false and attribute read returns the default;
after `update(group, name, v)` attribute read returns exactly `v`, and
`was_set` is true whenever `v` is a distinct object from the default
stored in the resulting record, even when equal to it in value. -/
theorem was_set_is_identity_based
    (g h : Group) (nm : String) (dflt descr v d2 dsc2 : PyObj)
    (g2 : Group) (hadd : g.add nm dflt descr = .ok g2) :
    ((alistFind g2.vars nm).map Var.was_set = some false ∧
      g2.getattr nm = .ok dflt) ∧
    ((h.update nm v d2 dsc2).getattr nm = .ok v ∧
      ∀ w, alistFind (h.update nm v d2 dsc2).vars nm = some w →
        v.id ≠ w.default.id → w.was_set = true) := by
  constructor
  · simp only [Group.add] at hadd
    split at hadd
    · exact Except.noConfusion hadd
    · injection hadd with h2
      subst h2
      have hf : alistFind
          (alistInsert g.vars nm (Var.mk nm descr dflt dflt true)) nm
          = some (Var.mk nm descr dflt dflt true) :=
        alistFind_insert_self ..
      constructor
      · show (alistFind
            (alistInsert g.vars nm (Var.mk nm descr dflt dflt true)) nm).map
            Var.was_set = some false
        rw [hf]
        simp [Var.was_set, pyIs]
      · show Group.getattr _ nm = .ok dflt
        unfold Group.getattr
        rw [show alistFind (Group.mk g.name
            (alistInsert g.vars nm (Var.mk nm descr dflt dflt true))).vars nm
            = some (Var.mk nm descr dflt dflt true) from hf]
  · have hf : alistFind (h.update nm v d2 dsc2).vars nm
        = some (Var.mk nm
            (match alistFind h.vars nm with
              | some prev => pyOr dsc2 prev.description
              | none => dsc2)
            v
            (match alistFind h.vars nm with
              | some prev => pyOr d2 prev.default
              | none => d2)
            false) := by
      unfold Group.update
      exact alistFind_insert_self ..
    constructor
    · unfold Group.getattr
      rw [hf]
    · intro w hw hne
      rw [hf] at hw
      injection hw with hw2
      subst hw2
      simp only [Var.was_set, pyIs, Bool.not_eq_true']
      exact beq_eq_false_iff_ne.mpr hne

/-- Witness for C1: declare `g.x` with default object `(id 1, 5)`; then
update it to `(id 2, 5)`, equal in value to the default but a distinct
instance.  After declaration `was_set` is false, after the update the
read returns the new object and `was_set` is true. -/
theorem was_set_is_identity_based_witness :
    ((alistFind declaredG.vars "x").map Var.was_set = some false ∧
      declaredG.getattr "x" = .ok (PyObj.mk 1 (Yaml.int 5))) ∧
    ((declaredG.update "x" (PyObj.mk 2 (Yaml.int 5)) pyNone
        pyNone).getattr "x" = .ok (PyObj.mk 2 (Yaml.int 5)) ∧
      (alistFind (declaredG.update "x" (PyObj.mk 2 (Yaml.int 5)) pyNone
          pyNone).vars "x").map Var.was_set = some true) := by
  have h := was_set_is_identity_based (Group.mk "g" []) declaredG "x"
    (PyObj.mk 1 (Yaml.int 5)) pyNone (PyObj.mk 2 (Yaml.int 5)) pyNone
    pyNone declaredG rfl
  refine ⟨⟨h.1.1, h.1.2⟩, h.2.1, ?_⟩
  have hw := h.2.2 (Var.mk "x" pyNone (PyObj.mk 2 (Yaml.int 5))
    (PyObj.mk 1 (Yaml.int 5)) false) rfl (by decide)
  exact congrArg some hw

/-- C2: in a registry where group `g` declared `x` with default `1` and
`x` was then set to `42`, saving, constructing a fresh registry state
and loading the saved document yields `g.x == 42` (value equality). -/
theorem roundtrip_save_load :
    save roundtripReg = [("g", [("x", Yaml.int 42)])] ∧
    regGet (parse_config (Registry.mk [] 100)
        (Except.ok (docOfSave (save roundtripReg)))) "g" "x"
      = some (Yaml.int 42) :=
  ⟨rfl, rfl⟩

/-- C4: the candidate order the code actually uses is
`./mcore.yml, ./manticore.yml, ./.mcore.yml, ./.manticore.yml` (the
product varies the dot prefix slowest), so with both `./.mcore.yml` and
`./manticore.yml` present the plain full-name file wins, contradicting
the claimed (and docstring) order in which the hidden short-name file
would have been loaded. -/
theorem lookup_order_is_product_order :
    default_names
        = ["./mcore.yml", "./manticore.yml", "./.mcore.yml",
           "./.manticore.yml"] ∧
    Except.map (fun st => regGet st "g" "x")
        (load_overrides (Registry.mk [] 50) bothNamesFs none)
      = .ok (some (Yaml.int 2)) :=
  ⟨rfl, rfl⟩

/-- C3 counterexample: a variable introduced purely via `update` is
invisible to `describe_options`, but explicitly declaring that same
name afterwards does not succeed: `add` fails with `ConfigError` because
the name already exists in the group. -/
theorem redeclare_after_update_fails :
    describe_options (Registry.mk [("g", updatedOnlyG)] 8) = "" ∧
    updatedOnlyG.add "x" (PyObj.mk 9 (Yaml.int 3)) pyNone
      = .error (.configError "g.x already defined.") :=
  ⟨rfl, rfl⟩

/-- C3 (amended): `describe_options` lists only variables with
`defined = true` — its output is unchanged when every non-defined
variable is removed — and a record touched by `update` always carries
`defined = false`; but explicitly declaring a name that already exists
(in particular one introduced purely via `update`) fails with
`ConfigError` instead of succeeding. -/
theorem describe_lists_only_declared
    (st : Registry) (g h2 : Group) (nm : String) (d dsc v dd dsc2 : PyObj)
    (pv : Var) (hm : alistFind g.vars nm = some pv) :
    describe_options (filterDefinedReg st) = describe_options st ∧
    (alistFind (h2.update nm v dd dsc2).vars nm).map Var.defined
      = some false ∧
    g.add nm d dsc = .error
      (.configError (g.name ++ "." ++ nm ++ " already defined.")) := by
  refine ⟨describe_groups_filter st.groups "", ?_, ?_⟩
  · rw [show alistFind (h2.update nm v dd dsc2).vars nm = some _ from by
      unfold Group.update
      exact alistFind_insert_self ..]
    rfl
  · unfold Group.add
    rw [if_pos (by rw [hm]; rfl)]

/-- Witness for C3 (amended) at concrete inputs. -/
theorem describe_lists_only_declared_witness :
    describe_options (filterDefinedReg (Registry.mk [("g", declaredG)] 0))
        = describe_options (Registry.mk [("g", declaredG)] 0) ∧
    (alistFind (updatedOnlyG.update "x" pyNone pyNone pyNone).vars "x").map
        Var.defined = some false ∧
    updatedOnlyG.add "x" pyNone pyNone
      = .error (.configError "g.x already defined.") := by
  have h := describe_lists_only_declared (Registry.mk [("g", declaredG)] 0)
    updatedOnlyG updatedOnlyG "x" pyNone pyNone pyNone pyNone pyNone
    (Var.mk "x" pyNone (PyObj.mk 7 (Yaml.int 3)) pyNone false) rfl
  exact h

/-- C5 counterexample: loading a document whose second section is a
scalar changes the registry — the first section is applied and the
failing section's group is created — so a failed load is not atomic. -/
theorem malformed_load_partially_applies :
    regGet (parse_config (Registry.mk [] 0) (Except.ok halfBadDoc)) "a" "x"
        = some (Yaml.int 1) ∧
    parse_config (Registry.mk [] 0) (Except.ok halfBadDoc)
        ≠ Registry.mk [] 0 := by
  refine ⟨rfl, fun h => ?_⟩
  have h2 : (parse_config (Registry.mk [] 0)
      (Except.ok halfBadDoc)).groups.length = 2 := rfl
  rw [h] at h2
  exact absurd h2 (by decide)

/-- C5 (amended): loading never propagates an exception; a document that
fails to parse, or is not a mapping at top level, leaves the registry
unchanged; but a traversal failure midway leaves every earlier section
applied and the failing section's group created — partial application is
possible. -/
theorem parse_failures_swallowed
    (st : Registry) (e : Unit) (d : Yaml)
    (pre rest : List (String × Yaml)) (sname : String) (bad : Yaml)
    (hd : ∀ l, d ≠ Yaml.ymap l)
    (hpre : ∀ s ∈ pre, ∃ l, s.2 = Yaml.ymap l)
    (hbad : ∀ l, bad ≠ Yaml.ymap l) :
    parse_config st (.error e) = st ∧
    parse_config st (.ok d) = st ∧
    parse_config st (.ok (.ymap (pre ++ (sname, bad) :: rest)))
      = (get_group (parse_sections st pre) sname).1 := by
  refine ⟨rfl, parse_config_not_map st d hd, ?_⟩
  show parse_sections st (pre ++ (sname, bad) :: rest) = _
  rw [parse_sections_append st pre _ hpre,
    parse_sections_stop _ _ _ _ hbad]

/-- Witness for C5 (amended) at the concrete half-bad document. -/
theorem parse_failures_swallowed_witness :
    parse_config (Registry.mk [] 0) (.error ()) = Registry.mk [] 0 ∧
    parse_config (Registry.mk [] 0) (.ok (Yaml.int 7))
        = Registry.mk [] 0 ∧
    parse_config (Registry.mk [] 0)
        (.ok (.ymap ([("a", Yaml.ymap [("x", Yaml.int 1)])]
          ++ ("b", Yaml.int 5) :: [])))
      = (get_group (parse_sections (Registry.mk [] 0)
          [("a", Yaml.ymap [("x", Yaml.int 1)])]) "b").1 :=
  parse_failures_swallowed (Registry.mk [] 0) () (Yaml.int 7)
    [("a", Yaml.ymap [("x", Yaml.int 1)])] [] "b" (Yaml.int 5)
    (fun _ h => Yaml.noConfusion h)
    (fun s hs => by
      simp only [List.mem_singleton] at hs
      subst hs
      exact ⟨[("x", Yaml.int 1)], rfl⟩)
    (fun _ h => Yaml.noConfusion h)

/-- C6: `load_overrides` with an explicit path that is absent fails with
the resource-miss error, while with no explicit path and no candidate
present it returns the registry unchanged and raises nothing. -/
theorem explicit_miss_raises_no_path_noop :
    (∀ (st : Registry) (fs : Fs) (p : String), alistFind fs p = none →
       load_overrides st fs (some p) = .error (.fileNotFoundError
         (p ++ " not found for config overrides"))) ∧
    (∀ (st : Registry) (fs : Fs),
       (∀ n ∈ default_names, alistFind fs n = none) →
       load_overrides st fs none = .ok st) := by
  constructor
  · intro st fs p hp
    simp only [load_overrides, hp]
  · intro st fs h
    simp only [load_overrides, try_names_all_missing st fs default_names h]

/-- Witness for C6: an empty working directory. -/
theorem explicit_miss_raises_no_path_noop_witness :
    load_overrides (Registry.mk [] 0) [] (some "/nonexistent/path")
      = .error (.fileNotFoundError
          ("/nonexistent/path" ++ " not found for config overrides")) ∧
    load_overrides (Registry.mk [] 0) [] none = .ok (Registry.mk [] 0) :=
  ⟨explicit_miss_raises_no_path_noop.1 (Registry.mk [] 0) []
      "/nonexistent/path" rfl,
   explicit_miss_raises_no_path_noop.2 (Registry.mk [] 0) []
      (fun _ _ => rfl)⟩

/-- C7 counterexample: at a concrete unknown name the three access paths
fail with three pairwise different exception kinds, not one shared
error. -/
theorem unknown_name_errors_differ :
    (Group.mk "g" []).get_description "x"
        = .error (.configError "g.x not defined.") ∧
    (Group.mk "g" []).getattr "x"
        = .error (.attributeError "Group g has no variable x") ∧
    (Group.mk "g" []).setattr "x" pyNone = .error (.keyError "x") ∧
    PyError.configError "g.x not defined."
        ≠ PyError.attributeError "Group g has no variable x" ∧
    PyError.attributeError "Group g has no variable x"
        ≠ PyError.keyError "x" ∧
    PyError.configError "g.x not defined." ≠ PyError.keyError "x" :=
  ⟨rfl, rfl, rfl, by decide, by decide, by decide⟩

/-- C7 (amended): for a name never declared or updated in a group,
reading the description, reading the value, and writing the value each
fail — but with three distinct error kinds (`ConfigError`,
`AttributeError`, `KeyError` respectively), not one shared error. -/
theorem unknown_name_three_failures
    (g : Group) (nm : String) (v : PyObj)
    (h : alistFind g.vars nm = none) :
    g.get_description nm = .error
        (.configError (g.name ++ "." ++ nm ++ " not defined.")) ∧
    g.getattr nm = .error (.attributeError
        ("Group " ++ g.name ++ " has no variable " ++ nm)) ∧
    g.setattr nm v = .error (.keyError nm) := by
  refine ⟨?_, ?_, ?_⟩
  · unfold Group.get_description
    rw [h]
  · unfold Group.getattr
    rw [h]
  · unfold Group.setattr
    rw [h]

/-- Witness for C7 (amended) at a concrete empty group. -/
theorem unknown_name_three_failures_witness :
    (Group.mk "h" []).get_description "y"
        = .error (.configError "h.y not defined.") ∧
    (Group.mk "h" []).getattr "y"
        = .error (.attributeError "Group h has no variable y") ∧
    (Group.mk "h" []).setattr "y" pyNone = .error (.keyError "y") :=
  unknown_name_three_failures (Group.mk "h" []) "y" pyNone rfl

/-- C8 counterexample: updating a declared variable while supplying the
falsy default object `(id 2, 0)` keeps the inherited default
`(id 1, 5)`: a supplied default equal to `0` does not replace the
previous one, contradicting the claim. -/
theorem falsy_default_not_replaced :
    (alistFind falsyDefaultG.vars "x").map (fun w => w.default)
        = some (PyObj.mk 1 (Yaml.int 5)) ∧
    PyObj.mk 1 (Yaml.int 5) ≠ PyObj.mk 2 (Yaml.int 0) := by
  refine ⟨rfl, fun h => ?_⟩
  have h2 : (1 : Nat) = 2 := congrArg PyObj.id h
  exact absurd h2 (by decide)

/-- C8 (amended): `update` on an existing name creates a replacement
record with `defined = false` and the given value, inheriting the
previous description and default unless truthy new ones are supplied; a
truthy new default replaces the inherited one, while a falsy one (None,
0, False, empty) is ignored in favour of the previous default. -/
theorem update_replacement_record
    (g : Group) (nm : String) (v d dsc : PyObj) (pv : Var)
    (hm : alistFind g.vars nm = some pv) :
    alistFind (g.update nm v d dsc).vars nm
      = some (Var.mk nm (pyOr dsc pv.description) v (pyOr d pv.default)
          false) ∧
    (d.val.truthy = true → pyOr d pv.default = d) ∧
    (d.val.truthy = false → pyOr d pv.default = pv.default) := by
  refine ⟨?_, fun ht => ?_, fun hf => ?_⟩
  · unfold Group.update
    rw [hm]
    exact alistFind_insert_self ..
  · unfold pyOr
    rw [if_pos ht]
  · unfold pyOr
    rw [if_neg (by rw [hf]; exact Bool.false_ne_true)]

/-- Witness for C8 (amended): a truthy new default `(id 2, 2)` does
replace the inherited `(id 1, 5)`. -/
theorem update_replacement_record_witness :
    alistFind (declaredG.update "x" (PyObj.mk 3 (Yaml.int 7))
        (PyObj.mk 2 (Yaml.int 2)) pyNone).vars "x"
      = some (Var.mk "x" (pyOr pyNone pyNone) (PyObj.mk 3 (Yaml.int 7))
          (pyOr (PyObj.mk 2 (Yaml.int 2)) (PyObj.mk 1 (Yaml.int 5)))
          false) ∧
    pyOr (PyObj.mk 2 (Yaml.int 2)) (PyObj.mk 1 (Yaml.int 5))
      = PyObj.mk 2 (Yaml.int 2) := by
  have h := update_replacement_record declaredG "x"
    (PyObj.mk 3 (Yaml.int 7)) (PyObj.mk 2 (Yaml.int 2)) pyNone
    (Var.mk "x" pyNone (PyObj.mk 1 (Yaml.int 5)) (PyObj.mk 1 (Yaml.int 5))
      true) rfl
  exact ⟨h.1, h.2.1 rfl⟩

/-- C9: `save` emits exactly the `was_set` variables grouped by group
name: every emitted section is nonempty and is the `updated_vars` image
of a stored group, every stored group with a nonempty `updated_vars` is
emitted, and `updated_vars` is precisely the stored variables whose
`was_set` holds. -/
theorem save_exactly_was_set (st : Registry) :
    (∀ gname sec, (gname, sec) ∈ save st →
       sec ≠ [] ∧ ∃ g, (gname, g) ∈ st.groups ∧
         sec = g.updated_vars.map (fun w => (w.name, w.value.val))) ∧
    (∀ gname g, (gname, g) ∈ st.groups → g.updated_vars ≠ [] →
       (gname, g.updated_vars.map (fun w => (w.name, w.value.val)))
         ∈ save st) ∧
    (∀ (g : Group) (w : Var),
       w ∈ g.updated_vars ↔ w ∈ g.vars.map (fun p => p.2) ∧
         w.was_set = true) := by
  refine ⟨?_, ?_, fun g w => mem_updated_vars g w⟩
  · intro gname sec hmem
    obtain ⟨g, hg, hsec, hne⟩ := (mem_save_iff st gname sec).mp hmem
    exact ⟨hne, g, hg, hsec⟩
  · intro gname g hg hne
    refine (mem_save_iff st gname _).mpr ⟨g, hg, rfl, fun h => ?_⟩
    exact hne ((List.map_eq_nil_iff).mp h)

/-- Witness for C9: a registry with one set variable in `g` and one
merely declared variable in `h`; only `g` is emitted. -/
theorem save_exactly_was_set_witness :
    ("g", setVarG.updated_vars.map (fun w => (w.name, w.value.val)))
      ∈ save (Registry.mk [("g", setVarG), ("h", declaredG)] 0) ∧
    save (Registry.mk [("g", setVarG), ("h", declaredG)] 0)
      = [("g", [("x", Yaml.int 42)])] := by
  refine ⟨(save_exactly_was_set _).2.1 "g" setVarG (List.Mem.head _)
    (fun h => ?_), rfl⟩
  exact List.noConfusion
    (show (Var.mk "x" pyNone (PyObj.mk 2 (Yaml.int 42))
        (PyObj.mk 1 (Yaml.int 1)) true) :: [] = ([] : List Var) from h)

/-- C10: assigning back the exact default object stored in a variable's
record makes `was_set` false again, excluding the variable from
`updated_vars` and from `save` output. -/
theorem restore_default_clears_was_set
    (g g2 : Group) (nm : String) (pv : Var)
    (hm : alistFind g.vars nm = some pv)
    (hnm : ∀ p ∈ g.vars, (p.2 : Var).name = p.1)
    (hset : g.setattr nm pv.default = .ok g2) :
    (alistFind g2.vars nm).map Var.was_set = some false ∧
    (∀ w ∈ g2.updated_vars, w.name ≠ nm) ∧
    (∀ (gname : String) (nid : Nat) (sname : String)
       (sec : List (String × Yaml)),
       (sname, sec) ∈ save (Registry.mk [(gname, g2)] nid) →
       ∀ q ∈ sec, q.1 ≠ nm) := by
  unfold Group.setattr at hset
  rw [hm] at hset
  injection hset with hset2
  subst hset2
  have hw : ∀ w ∈ (Group.mk g.name
      (alistInsert g.vars nm { pv with value := pv.default })).updated_vars,
      w.name ≠ nm := by
    intro w hwm
    obtain ⟨hmem, hws⟩ := (mem_updated_vars _ w).mp hwm
    have hany : (g.vars.any fun p => p.1 == nm) = true := by
      unfold alistFind at hm
      cases hfind : g.vars.find? (fun p => p.1 == nm) with
      | none => rw [hfind] at hm; exact Option.noConfusion hm
      | some q =>
          have hpq := List.find?_some hfind
          exact List.any_eq_true.mpr
            ⟨q, List.mem_of_find?_eq_some hfind, hpq⟩
    rw [show alistInsert g.vars nm ({ pv with value := pv.default })
        = g.vars.map (fun p => if p.1 == nm then
            (nm, { pv with value := pv.default }) else p) from by
      unfold alistInsert
      rw [if_pos hany]] at hmem
    rw [List.map_map, List.mem_map] at hmem
    obtain ⟨p, hp, hpw⟩ := hmem
    by_cases hpk : (p.1 == nm) = true
    · rw [show ((fun p => p.2) ∘ fun p =>
          if p.1 == nm then (nm, { pv with value := pv.default }) else p) p
          = ({ pv with value := pv.default } : Var) from by
        simp [Function.comp, hpk]] at hpw
      rw [← hpw] at hws
      simp [Var.was_set, pyIs] at hws
    · rw [show ((fun p => p.2) ∘ fun p =>
          if p.1 == nm then (nm, { pv with value := pv.default }) else p) p
          = p.2 from by simp [Function.comp, hpk]] at hpw
      rw [← hpw, hnm p hp]
      exact fun hcon => hpk (by rw [hcon]; simp)
  refine ⟨?_, hw, ?_⟩
  · show (alistFind
        (alistInsert g.vars nm ({ pv with value := pv.default })) nm).map
        Var.was_set = some false
    rw [alistFind_insert_self]
    simp [Var.was_set, pyIs]
  · intro gname nid sname sec hsec q hq
    obtain ⟨g3, hg3, hseceq, _⟩ := (mem_save_iff _ sname sec).mp hsec
    have hg3eq : g3 = Group.mk g.name
        (alistInsert g.vars nm ({ pv with value := pv.default })) := by
      rcases List.mem_singleton.mp hg3 with h
      exact congrArg Prod.snd h
    subst hseceq
    rw [List.mem_map] at hq
    obtain ⟨w, hwm, hweq⟩ := hq
    rw [← hweq]
    exact hw w (hg3eq ▸ hwm)

/-- Witness for C10: the set variable `g.x` is restored to its stored
default object; `was_set` is false, `updated_vars` is empty and `save`
emits nothing. -/
theorem restore_default_clears_was_set_witness :
    (alistFind restoredG.vars "x").map Var.was_set = some false ∧
    restoredG.updated_vars = [] ∧
    save (Registry.mk [("g", restoredG)] 0) = [] := by
  have h := restore_default_clears_was_set setVarG restoredG "x"
    (Var.mk "x" pyNone (PyObj.mk 2 (Yaml.int 42)) (PyObj.mk 1 (Yaml.int 1))
      true) rfl
    (by
      intro p hp
      cases hp with
      | head => rfl
      | tail _ htl => cases htl)
    rfl
  exact ⟨h.1, rfl, rfl⟩

end Manticore
